import Mathlib

/-!
Shallow embedding of `bevy_compute_skinned_aabb` (src/src/main.rs).

Scalars are modelled as rationals (`ℚ`); `f32::MAX` / `f32::MIN` are the
concrete rational values of those float constants, since `compute_aabb`
compares against them as sentinels.

The embedded functions follow the source:
  * `skin_model`              — src/src/main.rs lines 266-271
  * `compute_aabb`            — src/src/main.rs lines 278-296
  * `skinned_vertex_locations`'s per-mesh body — lines 204-262, as `processMesh`
Vector/matrix operations follow the `glam` library semantics used by the
source (`Mat4` as four column vectors; `transform_point3` multiplies the
homogeneous point with w = 1 and truncates, with no perspective divide).
Rust panics (out-of-bounds indexing, `Option::unwrap` on `None`) are
modelled as explicit failure values.
-/

namespace SkinnedAabb

/-- glam `Vec3`: three scalar components. -/
structure Vec3 where
  x : ℚ
  y : ℚ
  z : ℚ
deriving DecidableEq, Repr

/-- glam `Vec4`: four scalar components. -/
structure Vec4 where
  x : ℚ
  y : ℚ
  z : ℚ
  w : ℚ
deriving DecidableEq, Repr

/-- glam `Mat4`: column-major, four column vectors. -/
structure Mat4 where
  x_axis : Vec4
  y_axis : Vec4
  z_axis : Vec4
  w_axis : Vec4
deriving DecidableEq, Repr

def Vec4.add (a b : Vec4) : Vec4 := ⟨a.x + b.x, a.y + b.y, a.z + b.z, a.w + b.w⟩

instance : Add Vec4 := ⟨Vec4.add⟩

/-- Scalar multiplication of a `Vec4`, as glam `f32 * Vec4`. -/
def Vec4.smul (s : ℚ) (v : Vec4) : Vec4 := ⟨s * v.x, s * v.y, s * v.z, s * v.w⟩

instance : SMul ℚ Vec4 := ⟨Vec4.smul⟩

/-- glam `Vec4::truncate` / `.xyz()`: drop the `w` component. -/
def Vec4.xyz (v : Vec4) : Vec3 := ⟨v.x, v.y, v.z⟩

def Vec3.add (a b : Vec3) : Vec3 := ⟨a.x + b.x, a.y + b.y, a.z + b.z⟩

instance : Add Vec3 := ⟨Vec3.add⟩

def Vec3.sub (a b : Vec3) : Vec3 := ⟨a.x - b.x, a.y - b.y, a.z - b.z⟩

instance : Sub Vec3 := ⟨Vec3.sub⟩

/-- Scalar multiplication of a `Vec3`, as glam `f32 * Vec3`. -/
def Vec3.smul (s : ℚ) (v : Vec3) : Vec3 := ⟨s * v.x, s * v.y, s * v.z⟩

instance : SMul ℚ Vec3 := ⟨Vec3.smul⟩

/-- glam `Vec3::min`: component-wise minimum. -/
def Vec3.min (a b : Vec3) : Vec3 := ⟨Min.min a.x b.x, Min.min a.y b.y, Min.min a.z b.z⟩

/-- glam `Vec3::max`: component-wise maximum. -/
def Vec3.max (a b : Vec3) : Vec3 := ⟨Max.max a.x b.x, Max.max a.y b.y, Max.max a.z b.z⟩

/-- Component-wise order on `Vec3` (used to state AABB containment). -/
def Vec3.le (a b : Vec3) : Prop := a.x ≤ b.x ∧ a.y ≤ b.y ∧ a.z ≤ b.z

instance (a b : Vec3) : Decidable (Vec3.le a b) := by unfold Vec3.le; infer_instance

/-- glam `f32 * Mat4`: scale every column. -/
def Mat4.smul (s : ℚ) (m : Mat4) : Mat4 :=
  ⟨s • m.x_axis, s • m.y_axis, s • m.z_axis, s • m.w_axis⟩

instance : SMul ℚ Mat4 := ⟨Mat4.smul⟩

/-- glam `Mat4 + Mat4`: column-wise addition. -/
def Mat4.add (a b : Mat4) : Mat4 :=
  ⟨a.x_axis + b.x_axis, a.y_axis + b.y_axis, a.z_axis + b.z_axis, a.w_axis + b.w_axis⟩

instance : Add Mat4 := ⟨Mat4.add⟩

/-- glam `Mat4 * Vec4` (column-major linear combination of the columns). -/
def Mat4.mulVec4 (m : Mat4) (v : Vec4) : Vec4 :=
  v.x • m.x_axis + v.y • m.y_axis + v.z • m.z_axis + v.w • m.w_axis

/-- glam `Mat4 * Mat4`: multiply each column of `b` by `a`. -/
def Mat4.mul (a b : Mat4) : Mat4 :=
  ⟨a.mulVec4 b.x_axis, a.mulVec4 b.y_axis, a.mulVec4 b.z_axis, a.mulVec4 b.w_axis⟩

/-- glam `Mat4::IDENTITY`. -/
def Mat4.identity : Mat4 :=
  ⟨⟨1, 0, 0, 0⟩, ⟨0, 1, 0, 0⟩, ⟨0, 0, 1, 0⟩, ⟨0, 0, 0, 1⟩⟩

/-- glam `Mat4::transform_point3`: multiply the homogeneous point `(p, 1)`
by the matrix and truncate; no perspective divide. -/
def Mat4.transform_point3 (m : Mat4) (p : Vec3) : Vec3 :=
  (p.x • m.x_axis + p.y • m.y_axis + p.z • m.z_axis + m.w_axis).xyz

/-- The rational value of the float constant `std::f32::MAX` = (2 - 2⁻²³)·2¹²⁷. -/
def f32MAX : ℚ := 2 ^ 128 - 2 ^ 104

/-- The rational value of the float constant `std::f32::MIN` = -`f32::MAX`. -/
def f32MIN : ℚ := -(2 ^ 128 - 2 ^ 104)

/-- `const VEC3_MAX: Vec3 = Vec3::splat(std::f32::MIN)` — source line 274
(`Vec3::splat(std::f32::MAX)`). -/
def VEC3_MAX : Vec3 := ⟨f32MAX, f32MAX, f32MAX⟩

/-- `const VEC3_MIN: Vec3 = Vec3::splat(std::f32::MIN)` — source line 273. -/
def VEC3_MIN : Vec3 := ⟨f32MIN, f32MIN, f32MIN⟩

/-- bevy `Aabb`: center and half-extents. -/
structure Aabb where
  center : Vec3
  half_extents : Vec3
deriving DecidableEq, Repr

/-- bevy `Aabb::from_min_max` (library constructor used by `compute_aabb`):
`center = 0.5 * (max + min)`, `half_extents = 0.5 * (max - min)` — the
formula the spec states for the (min, max) ↔ (center, half-extents)
equivalence. -/
def Aabb.from_min_max (minimum maximum : Vec3) : Aabb :=
  ⟨(1 / 2 : ℚ) • (maximum + minimum), (1 / 2 : ℚ) • (maximum - minimum)⟩

/-- The four per-vertex joint indices (`[u16; 4]`, each cast to `usize`
before indexing). -/
structure JointIndices where
  i0 : ℕ
  i1 : ℕ
  i2 : ℕ
  i3 : ℕ
deriving DecidableEq, Repr

/-- `skin_model` — src/src/main.rs lines 266-271. The Rust function indexes
`joint_matrices` unconditionally at all four slots and panics when any
index is out of bounds; the panic is modelled as `none`. -/
def skin_model (joint_matrices : List Mat4) (indexes : JointIndices) (weights : Vec4) :
    Option Mat4 :=
  match joint_matrices[indexes.i0]?, joint_matrices[indexes.i1]?,
      joint_matrices[indexes.i2]?, joint_matrices[indexes.i3]? with
  | some m0, some m1, some m2, some m3 =>
      some (weights.x • m0 + weights.y • m1 + weights.z • m2 + weights.w • m3)
  | _, _, _, _ => none

/-- One vertex of the `ws_positions` map — src/src/main.rs lines 242-245:
`skin_model(&joints, indices, Vec4::from(*weights))` followed by
`model.transform_point3(Vec3::from(*pos))`. -/
def vertexWsPosition (joints : List Mat4) (indexes : JointIndices) (weights : Vec4)
    (pos : Vec3) : Option Vec3 :=
  (skin_model joints indexes weights).map (fun m => m.transform_point3 pos)

/-- The body of the `for p in values` loop of `compute_aabb`:
`minimum = minimum.min(*p); maximum = maximum.max(*p)` on the running
`(minimum, maximum)` pair. -/
def aabbStep (s : Vec3 × Vec3) (p : Vec3) : Vec3 × Vec3 :=
  (s.1.min p, s.2.max p)

/-- `compute_aabb` — src/src/main.rs lines 278-296: fold component-wise
min/max seeded at the `VEC3_MAX` / `VEC3_MIN` sentinels, then return
`some` only if no component of the result still equals its sentinel. -/
def compute_aabb (values : List Vec3) : Option Aabb :=
  let mm := values.foldl aabbStep (VEC3_MAX, VEC3_MIN)
  if mm.1.x ≠ f32MAX ∧ mm.1.y ≠ f32MAX ∧ mm.1.z ≠ f32MAX ∧
      mm.2.x ≠ f32MIN ∧ mm.2.y ≠ f32MIN ∧ mm.2.z ≠ f32MIN then
    some (Aabb.from_min_max mm.1 mm.2)
  else
    none

/-- The coordinate range of every finite `f32` value other than the two
sentinel extremes: strictly between `f32::MIN` and `f32::MAX`. -/
def inOpenF32Range (v : Vec3) : Prop :=
  f32MIN < v.x ∧ v.x < f32MAX ∧ f32MIN < v.y ∧ v.y < f32MAX ∧ f32MIN < v.z ∧ v.z < f32MAX

instance (v : Vec3) : Decidable (inOpenF32Range v) := by unfold inOpenF32Range; infer_instance

/-- Rust's `Iterator::collect` over a fallible map: `some` of the list of
results when every element succeeds, `none` as soon as one fails (the
failure models a panic inside the closure). -/
def collectMap (f : α → Option β) : List α → Option (List β)
  | [] => some []
  | a :: as =>
    match f a, collectMap f as with
    | some b, some bs => some (b :: bs)
    | _, _ => none

/-- Modelled from the spec: `SkinnedMeshJoints::build` is bevy library code,
not part of src/. Spec §4.1: per joint index `i`,
`skin_matrix[i] = world_transform[joint[i]] * inverse_bind_pose[i]`, and if
any joint's world transform is unavailable the evaluator signals a
missing-joint-transform condition (`none`) instead of substituting identity. -/
def buildJoints (worldTransform : ℕ → Option Mat4) (joints : List ℕ)
    (inverse_bindposes : List Mat4) : Option (List Mat4) :=
  collectMap (fun ji => (worldTransform ji.1).map (fun w => w.mul ji.2))
    (joints.zip inverse_bindposes)

/-- The three vertex attribute arrays the per-mesh loop requires
(src/src/main.rs lines 207-227). `none` models a missing attribute or one
carried in the wrong `VertexAttributeValues` variant. -/
structure MeshAttributes where
  positions : Option (List Vec3)
  joint_indices : Option (List JointIndices)
  joint_weights : Option (List Vec4)

/-- One mesh entity as seen by `skinned_vertex_locations`: its `SkinnedMesh`
binding (joint entity handles and the inverse-bindpose asset, `none` when
the asset lookup fails) and its vertex attributes. -/
structure MeshInput where
  joints : List ℕ
  inverse_bindposes : Option (List Mat4)
  attrs : MeshAttributes

/-- Outcome of the per-mesh body of `skinned_vertex_locations`:
`skipped` models `continue` / the `if let Some` falling through (nothing
produced for the mesh), `panicked` models a Rust panic (out-of-bounds
joint index or `unwrap` on `None`), `ok` carries the world-space positions
(also written to the debug cubes) and the AABB written to the debug cube. -/
inductive MeshOutcome where
  | skipped
  | panicked
  | ok (ws_positions : List Vec3) (aabb : Aabb)
deriving DecidableEq, Repr

/-- The `ws_positions` computation — src/src/main.rs lines 238-246:
`positions.iter().zip(indices).zip(weights).map(...).collect()`. Rust's
`zip` truncates to the shorter input. -/
def wsPositionsOf (joints : List Mat4) (ps : List Vec3) (idxs : List JointIndices)
    (ws : List Vec4) : Option (List Vec3) :=
  collectMap (fun piw => vertexWsPosition joints piw.1.2 piw.2 piw.1.1)
    ((ps.zip idxs).zip ws)

/-- The per-mesh body of `skinned_vertex_locations` — src/src/main.rs lines
204-262: fetch the three attributes (`continue` when missing), build the
skin matrices (fall through when `None`), map the vertices through
`skin_model` + `transform_point3`, then `compute_aabb(..).unwrap()` —
the `unwrap` panics when the AABB is `None`. -/
def processMesh (worldTransform : ℕ → Option Mat4) (input : MeshInput) : MeshOutcome :=
  match input.attrs.positions, input.attrs.joint_indices, input.attrs.joint_weights with
  | some ps, some idxs, some ws =>
    match input.inverse_bindposes.bind (buildJoints worldTransform input.joints) with
    | some joints =>
      match wsPositionsOf joints ps idxs ws with
      | some wsps =>
        match compute_aabb wsps with
        | some box => .ok wsps box
        | none => .panicked
      | none => .panicked
    | none => .skipped
  | _, _, _ => .skipped

/-- Helper for `runFrame`: a panicked outcome aborts (`none`), any other
outcome is recorded. -/
def outcomeOk (o : MeshOutcome) : Option MeshOutcome :=
  match o with
  | .panicked => none
  | o => some o

/-- The `for (mesh_h, skinned_mesh) in query.iter()` loop of
`skinned_vertex_locations`: processes every mesh in order; a panic in any
iteration aborts the whole system (modelled as `none`), otherwise all
outcomes are produced. -/
def runFrame (worldTransform : ℕ → Option Mat4) (inputs : List MeshInput) :
    Option (List MeshOutcome) :=
  collectMap (fun input => outcomeOk (processMesh worldTransform input)) inputs

/-! ### Component-unfolding lemmas for the vector and matrix operations -/

@[simp] theorem Vec4.add4_def (a b : Vec4) :
    a + b = ⟨a.x + b.x, a.y + b.y, a.z + b.z, a.w + b.w⟩ := rfl

@[simp] theorem Vec4.smul4_def (s : ℚ) (v : Vec4) :
    s • v = ⟨s * v.x, s * v.y, s * v.z, s * v.w⟩ := rfl

@[simp] theorem Vec3.add3_def (a b : Vec3) :
    a + b = ⟨a.x + b.x, a.y + b.y, a.z + b.z⟩ := rfl

@[simp] theorem Vec3.sub3_def (a b : Vec3) :
    a - b = ⟨a.x - b.x, a.y - b.y, a.z - b.z⟩ := rfl

@[simp] theorem Vec3.smul3_def (s : ℚ) (v : Vec3) :
    s • v = ⟨s * v.x, s * v.y, s * v.z⟩ := rfl

@[simp] theorem Mat4.smulM_def (s : ℚ) (m : Mat4) :
    s • m = ⟨s • m.x_axis, s • m.y_axis, s • m.z_axis, s • m.w_axis⟩ := rfl

@[simp] theorem Mat4.addM_def (a b : Mat4) :
    a + b = ⟨a.x_axis + b.x_axis, a.y_axis + b.y_axis,
      a.z_axis + b.z_axis, a.w_axis + b.w_axis⟩ := rfl

/-! ### Generic lemmas about `collectMap` -/

theorem collectMap_some_length {f : α → Option β} :
    ∀ {l : List α} {bs : List β}, collectMap f l = some bs → bs.length = l.length := by
  intro l
  induction l with
  | nil => intro bs h; simp [collectMap] at h; simp [← h]
  | cons a as ih =>
    intro bs h
    simp only [collectMap] at h
    cases ha : f a with
    | none => rw [ha] at h; simp at h
    | some b =>
      rw [ha] at h
      cases has : collectMap f as with
      | none => rw [has] at h; simp at h
      | some bs2 =>
        rw [has] at h
        simp only [Option.some.injEq] at h
        subst h
        simp [ih has]

theorem collectMap_none_of_mem {f : α → Option β} :
    ∀ {l : List α} {a : α}, a ∈ l → f a = none → collectMap f l = none := by
  intro l
  induction l with
  | nil => intro a h; simp at h
  | cons b bs ih =>
    intro a h hfa
    rcases List.mem_cons.mp h with h | h
    · subst h; simp [collectMap, hfa]
    · cases hfb : f b <;> simp [collectMap, hfb, ih h hfa]

/-! ### Fold lemmas for the AABB reduction -/

theorem foldl_min_le_init (l : List ℚ) : ∀ a : ℚ, l.foldl Min.min a ≤ a := by
  induction l with
  | nil => intro a; exact le_refl a
  | cons p t ih => intro a; exact le_trans (ih (Min.min a p)) (min_le_left a p)

theorem foldl_min_le_of_mem (l : List ℚ) :
    ∀ (a q : ℚ), q ∈ l → l.foldl Min.min a ≤ q := by
  induction l with
  | nil => intro a q h; simp at h
  | cons p t ih =>
    intro a q h
    rcases List.mem_cons.mp h with h | h
    · subst h; exact le_trans (foldl_min_le_init t (Min.min a q)) (min_le_right a q)
    · exact ih (Min.min a p) q h

theorem le_foldl_min (l : List ℚ) :
    ∀ (a b : ℚ), b ≤ a → (∀ q ∈ l, b ≤ q) → b ≤ l.foldl Min.min a := by
  induction l with
  | nil => intro a b h _; exact h
  | cons p t ih =>
    intro a b hba hmem
    exact ih (Min.min a p) b (le_min hba (hmem p (by simp)))
      (fun q hq => hmem q (by simp [hq]))

theorem init_le_foldl_max (l : List ℚ) : ∀ a : ℚ, a ≤ l.foldl Max.max a := by
  induction l with
  | nil => intro a; exact le_refl a
  | cons p t ih => intro a; exact le_trans (le_max_left a p) (ih (Max.max a p))

theorem le_foldl_max_of_mem (l : List ℚ) :
    ∀ (a q : ℚ), q ∈ l → q ≤ l.foldl Max.max a := by
  induction l with
  | nil => intro a q h; simp at h
  | cons p t ih =>
    intro a q h
    rcases List.mem_cons.mp h with h | h
    · subst h; exact le_trans (le_max_right a q) (init_le_foldl_max t (Max.max a q))
    · exact ih (Max.max a p) q h

theorem foldl_max_le (l : List ℚ) :
    ∀ (a b : ℚ), a ≤ b → (∀ q ∈ l, q ≤ b) → l.foldl Max.max a ≤ b := by
  induction l with
  | nil => intro a b h _; exact h
  | cons p t ih =>
    intro a b hab hmem
    exact ih (Max.max a p) b (max_le hab (hmem p (by simp)))
      (fun q hq => hmem q (by simp [hq]))

theorem foldl_vmin_comp (f : Vec3 → ℚ) (hf : ∀ a b, f (a.min b) = Min.min (f a) (f b)) :
    ∀ (l : List Vec3) (v : Vec3), f (l.foldl Vec3.min v) = (l.map f).foldl Min.min (f v) := by
  intro l
  induction l with
  | nil => intro v; rfl
  | cons p t ih =>
    intro v
    simp only [List.foldl_cons, List.map_cons]
    rw [ih, hf]

theorem foldl_vmax_comp (f : Vec3 → ℚ) (hf : ∀ a b, f (a.max b) = Max.max (f a) (f b)) :
    ∀ (l : List Vec3) (v : Vec3), f (l.foldl Vec3.max v) = (l.map f).foldl Max.max (f v) := by
  intro l
  induction l with
  | nil => intro v; rfl
  | cons p t ih =>
    intro v
    simp only [List.foldl_cons, List.map_cons]
    rw [ih, hf]

theorem foldl_aabbStep_fst :
    ∀ (l : List Vec3) (s : Vec3 × Vec3), (l.foldl aabbStep s).1 = l.foldl Vec3.min s.1 := by
  intro l
  induction l with
  | nil => intro s; rfl
  | cons p t ih => intro s; simp only [List.foldl_cons]; exact ih (aabbStep s p)

theorem foldl_aabbStep_snd :
    ∀ (l : List Vec3) (s : Vec3 × Vec3), (l.foldl aabbStep s).2 = l.foldl Vec3.max s.2 := by
  intro l
  induction l with
  | nil => intro s; rfl
  | cons p t ih => intro s; simp only [List.foldl_cons]; exact ih (aabbStep s p)

theorem vfold_min_le (p : Vec3) (ps : List Vec3) :
    ∀ q ∈ p :: ps, (ps.foldl Vec3.min p).le q := by
  intro q hq
  refine ⟨?_, ?_, ?_⟩ <;>
    [rw [foldl_vmin_comp Vec3.x (fun a b => rfl)];
     rw [foldl_vmin_comp Vec3.y (fun a b => rfl)];
     rw [foldl_vmin_comp Vec3.z (fun a b => rfl)]] <;>
  · rcases List.mem_cons.mp hq with h | h
    · subst h; exact foldl_min_le_init _ _
    · exact foldl_min_le_of_mem _ _ _ (List.mem_map_of_mem _ h)

theorem vfold_le_max (p : Vec3) (ps : List Vec3) :
    ∀ q ∈ p :: ps, q.le (ps.foldl Vec3.max p) := by
  intro q hq
  refine ⟨?_, ?_, ?_⟩ <;>
    [rw [foldl_vmax_comp Vec3.x (fun a b => rfl)];
     rw [foldl_vmax_comp Vec3.y (fun a b => rfl)];
     rw [foldl_vmax_comp Vec3.z (fun a b => rfl)]] <;>
  · rcases List.mem_cons.mp hq with h | h
    · subst h; exact init_le_foldl_max _ _
    · exact le_foldl_max_of_mem _ _ _ (List.mem_map_of_mem _ h)

theorem le_vfold_min (lo p : Vec3) (ps : List Vec3) (h : ∀ q ∈ p :: ps, lo.le q) :
    lo.le (ps.foldl Vec3.min p) := by
  refine ⟨?_, ?_, ?_⟩ <;>
    [rw [foldl_vmin_comp Vec3.x (fun a b => rfl)];
     rw [foldl_vmin_comp Vec3.y (fun a b => rfl)];
     rw [foldl_vmin_comp Vec3.z (fun a b => rfl)]]
  · exact le_foldl_min _ _ _ (h p (by simp)).1
      (by intro q hq; obtain ⟨v, hv, rfl⟩ := List.mem_map.mp hq
          exact (h v (by simp [hv])).1)
  · exact le_foldl_min _ _ _ (h p (by simp)).2.1
      (by intro q hq; obtain ⟨v, hv, rfl⟩ := List.mem_map.mp hq
          exact (h v (by simp [hv])).2.1)
  · exact le_foldl_min _ _ _ (h p (by simp)).2.2
      (by intro q hq; obtain ⟨v, hv, rfl⟩ := List.mem_map.mp hq
          exact (h v (by simp [hv])).2.2)

theorem vfold_max_le (hi p : Vec3) (ps : List Vec3) (h : ∀ q ∈ p :: ps, q.le hi) :
    (ps.foldl Vec3.max p).le hi := by
  refine ⟨?_, ?_, ?_⟩ <;>
    [rw [foldl_vmax_comp Vec3.x (fun a b => rfl)];
     rw [foldl_vmax_comp Vec3.y (fun a b => rfl)];
     rw [foldl_vmax_comp Vec3.z (fun a b => rfl)]]
  · exact foldl_max_le _ _ _ (h p (by simp)).1
      (by intro q hq; obtain ⟨v, hv, rfl⟩ := List.mem_map.mp hq
          exact (h v (by simp [hv])).1)
  · exact foldl_max_le _ _ _ (h p (by simp)).2.1
      (by intro q hq; obtain ⟨v, hv, rfl⟩ := List.mem_map.mp hq
          exact (h v (by simp [hv])).2.1)
  · exact foldl_max_le _ _ _ (h p (by simp)).2.2
      (by intro q hq; obtain ⟨v, hv, rfl⟩ := List.mem_map.mp hq
          exact (h v (by simp [hv])).2.2)

/-- Evaluation of `compute_aabb` on a non-empty list whose head is strictly
inside the `f32` sentinel range: the sentinel seeds drop out and the guard
passes, so the result is the box of the running component-wise min/max. -/
theorem compute_aabb_cons (p : Vec3) (ps : List Vec3) (hp : inOpenF32Range p) :
    compute_aabb (p :: ps) =
      some (Aabb.from_min_max (ps.foldl Vec3.min p) (ps.foldl Vec3.max p)) := by
  obtain ⟨h1, h2, h3, h4, h5, h6⟩ := hp
  have hseed : aabbStep (VEC3_MAX, VEC3_MIN) p = (p, p) := by
    simp [aabbStep, VEC3_MAX, VEC3_MIN, Vec3.min, Vec3.max,
      min_eq_right (le_of_lt h2), min_eq_right (le_of_lt h4), min_eq_right (le_of_lt h6),
      max_eq_right (le_of_lt h1), max_eq_right (le_of_lt h3), max_eq_right (le_of_lt h5)]
  have hfold : (p :: ps).foldl aabbStep (VEC3_MAX, VEC3_MIN) =
      (ps.foldl Vec3.min p, ps.foldl Vec3.max p) := by
    rw [List.foldl_cons, hseed]
    exact Prod.ext (foldl_aabbStep_fst ps (p, p)) (foldl_aabbStep_snd ps (p, p))
  have hmn := vfold_min_le p ps p (by simp)
  have hmx := vfold_le_max p ps p (by simp)
  simp only [compute_aabb, hfold]
  rw [if_pos]
  exact ⟨ne_of_lt (lt_of_le_of_lt hmn.1 h2), ne_of_lt (lt_of_le_of_lt hmn.2.1 h4),
    ne_of_lt (lt_of_le_of_lt hmn.2.2 h6), ne_of_gt (lt_of_lt_of_le h1 hmx.1),
    ne_of_gt (lt_of_lt_of_le h3 hmx.2.1), ne_of_gt (lt_of_lt_of_le h5 hmx.2.2)⟩

theorem aabbStep_comm (s : Vec3 × Vec3) (p q : Vec3) :
    aabbStep (aabbStep s p) q = aabbStep (aabbStep s q) p := by
  simp [aabbStep, Vec3.min, Vec3.max, min_right_comm, sup_right_comm]

theorem foldl_aabbStep_perm {l1 l2 : List Vec3} (h : l1.Perm l2) :
    ∀ s : Vec3 × Vec3, l1.foldl aabbStep s = l2.foldl aabbStep s := by
  induction h with
  | nil => intro s; rfl
  | cons x _ ih => intro s; simp only [List.foldl_cons]; exact ih (aabbStep s x)
  | swap x y l => intro s; simp only [List.foldl_cons, aabbStep_comm]
  | trans _ _ ih1 ih2 => intro s; rw [ih1 s, ih2 s]

/-! ### Claim theorems -/

/-- C3: on the empty list of positions, `compute_aabb` returns `none`
(the no-result signal), not a sentinel-valued or zero-initialized box. -/
theorem compute_aabb_empty_none : compute_aabb ([] : List Vec3) = none := by
  norm_num [compute_aabb, VEC3_MAX, VEC3_MIN, f32MAX, f32MIN]

/-- C8: `compute_aabb` is order-independent — permuting the input
positions yields the identical result (same box, or `none` for both). -/
theorem compute_aabb_perm_invariant (l1 l2 : List Vec3) (h : l1.Perm l2) :
    compute_aabb l1 = compute_aabb l2 := by
  simp only [compute_aabb, foldl_aabbStep_perm h]

/-- Witness for C8 at a concrete two-element permutation. -/
theorem compute_aabb_perm_invariant_witness :
    ([⟨0, 0, 0⟩, ⟨1, 2, 3⟩] : List Vec3).Perm [⟨1, 2, 3⟩, ⟨0, 0, 0⟩] ∧
    compute_aabb [⟨0, 0, 0⟩, ⟨1, 2, 3⟩] = compute_aabb [⟨1, 2, 3⟩, ⟨0, 0, 0⟩] :=
  ⟨List.Perm.swap _ _ _,
    compute_aabb_perm_invariant _ _ (List.Perm.swap _ _ _)⟩

/-- Counterexample to C2 as stated: the non-empty input `[(f32::MAX, 0, 0)]`
produces `none`, because the running minimum of the x-axis still equals the
`f32::MAX` sentinel, so the guard rejects the box. -/
theorem compute_aabb_nonempty_can_fail :
    compute_aabb [(⟨f32MAX, 0, 0⟩ : Vec3)] = none := by
  norm_num [compute_aabb, VEC3_MAX, VEC3_MIN, f32MAX, f32MIN, aabbStep, Vec3.min, Vec3.max]

/-- C2 (amended): for a non-empty input whose head point lies strictly
inside the `f32::MIN`/`f32::MAX` sentinel range, `compute_aabb` returns
`some` box built by `Aabb::from_min_max` from the component-wise minimum
and maximum over the input — every input point is contained between the
two corners, and any other pair of bounding corners is no tighter. -/
theorem compute_aabb_nonempty_minimal_box (p : Vec3) (ps : List Vec3)
    (hp : inOpenF32Range p) :
    compute_aabb (p :: ps) =
      some (Aabb.from_min_max (ps.foldl Vec3.min p) (ps.foldl Vec3.max p)) ∧
    (∀ q ∈ p :: ps, (ps.foldl Vec3.min p).le q ∧ q.le (ps.foldl Vec3.max p)) ∧
    (∀ lo hi : Vec3, (∀ q ∈ p :: ps, lo.le q ∧ q.le hi) →
      lo.le (ps.foldl Vec3.min p) ∧ (ps.foldl Vec3.max p).le hi) := by
  refine ⟨compute_aabb_cons p ps hp,
    fun q hq => ⟨vfold_min_le p ps q hq, vfold_le_max p ps q hq⟩,
    fun lo hi h => ⟨le_vfold_min lo p ps (fun q hq => (h q hq).1),
      vfold_max_le hi p ps (fun q hq => (h q hq).2)⟩⟩

/-- Witness for C2 (amended) at the concrete input `[(0,0,0), (1,2,3)]`. -/
theorem compute_aabb_nonempty_minimal_box_witness :
    inOpenF32Range (⟨0, 0, 0⟩ : Vec3) ∧
    compute_aabb [⟨0, 0, 0⟩, ⟨1, 2, 3⟩] =
      some (Aabb.from_min_max ⟨0, 0, 0⟩ ⟨1, 2, 3⟩) := by
  have hp : inOpenF32Range (⟨0, 0, 0⟩ : Vec3) := by
    norm_num [inOpenF32Range, f32MAX, f32MIN]
  exact ⟨hp, (compute_aabb_nonempty_minimal_box ⟨0, 0, 0⟩ [⟨1, 2, 3⟩] hp).1⟩

/-- Counterexample to C9 as stated: for the single-element list at the
point with every coordinate equal to `f32::MAX`, `compute_aabb` returns
`none` instead of a zero-extent box centred at the point. -/
theorem compute_aabb_singleton_can_fail :
    compute_aabb [(⟨f32MAX, f32MAX, f32MAX⟩ : Vec3)] = none := by
  norm_num [compute_aabb, VEC3_MAX, VEC3_MIN, f32MAX, f32MIN, aabbStep, Vec3.min, Vec3.max]

/-- C9 (amended): for a single point `P` with coordinates strictly inside
the `f32::MIN`/`f32::MAX` sentinel range, `compute_aabb [P]` is the box
with center `P` and half-extents `(0,0,0)`. -/
theorem compute_aabb_singleton_center (P : Vec3) (hp : inOpenF32Range P) :
    compute_aabb [P] = some ⟨P, ⟨0, 0, 0⟩⟩ := by
  rw [show ([P] : List Vec3) = P :: [] from rfl, compute_aabb_cons P [] hp]
  obtain ⟨x, y, z⟩ := P
  simp only [List.foldl_nil, Aabb.from_min_max, Vec3.add3_def, Vec3.sub3_def,
    Vec3.smul3_def, Option.some.injEq, Aabb.mk.injEq, Vec3.mk.injEq]
  refine ⟨⟨?_, ?_, ?_⟩, ?_, ?_, ?_⟩ <;> ring

/-- Witness for C9 (amended) at the concrete point `(5, -3, 7)`. -/
theorem compute_aabb_singleton_center_witness :
    inOpenF32Range (⟨5, -3, 7⟩ : Vec3) ∧
    compute_aabb [⟨5, -3, 7⟩] = some ⟨⟨5, -3, 7⟩, ⟨0, 0, 0⟩⟩ := by
  have hp : inOpenF32Range (⟨5, -3, 7⟩ : Vec3) := by
    norm_num [inOpenF32Range, f32MAX, f32MIN]
  exact ⟨hp, compute_aabb_singleton_center _ hp⟩

/-- Linearity of `transform_point3` in the matrix: transforming by the
weighted sum of four matrices equals the weighted sum of the four
transformed points. -/
theorem transform_point3_blend (m0 m1 m2 m3 : Mat4) (w : Vec4) (p : Vec3) :
    (w.x • m0 + w.y • m1 + w.z • m2 + w.w • m3).transform_point3 p =
      w.x • m0.transform_point3 p + w.y • m1.transform_point3 p +
        w.z • m2.transform_point3 p + w.w • m3.transform_point3 p := by
  simp only [Mat4.smulM_def, Mat4.addM_def, Vec4.smul4_def, Vec4.add4_def,
    Mat4.transform_point3, Vec4.xyz, Vec3.smul3_def, Vec3.add3_def, Vec3.mk.injEq]
  refine ⟨by ring, by ring, by ring⟩

/-- C1: for a vertex with in-bounds joint indices, the computed world
position is the weighted matrix blend `w0*M[j0] + w1*M[j1] + w2*M[j2] +
w3*M[j3]` applied to the bind-pose position as a point; the weights enter
exactly as given — the statement imposes no constraint on their sum, so no
renormalization happens. -/
theorem vertex_blend_matrix_applied (joints : List Mat4) (i0 i1 i2 i3 : ℕ)
    (h0 : i0 < joints.length) (h1 : i1 < joints.length) (h2 : i2 < joints.length)
    (h3 : i3 < joints.length) (w : Vec4) (p : Vec3) :
    vertexWsPosition joints ⟨i0, i1, i2, i3⟩ w p =
      some ((w.x • joints[i0] + w.y • joints[i1] + w.z • joints[i2] +
        w.w • joints[i3]).transform_point3 p) := by
  unfold vertexWsPosition skin_model
  rw [List.getElem?_eq_getElem h0, List.getElem?_eq_getElem h1,
    List.getElem?_eq_getElem h2, List.getElem?_eq_getElem h3]
  rfl

/-- Witness for C1: two joints, weights `(1, 1, 0, 0)` summing to 2 —
accepted as given; the blended point doubles instead of being averaged. -/
theorem vertex_blend_matrix_applied_witness :
    ((0 : ℕ) < 2 ∧ (1 : ℕ) < 2) ∧
    vertexWsPosition [Mat4.identity,
        ⟨⟨1, 0, 0, 0⟩, ⟨0, 1, 0, 0⟩, ⟨0, 0, 1, 0⟩, ⟨1, 2, 3, 1⟩⟩]
      ⟨0, 1, 0, 0⟩ ⟨1, 1, 0, 0⟩ ⟨1, 0, 0⟩ = some ⟨3, 2, 3⟩ := by
  refine ⟨⟨by norm_num, by norm_num⟩, ?_⟩
  rw [vertex_blend_matrix_applied _ 0 1 0 0 (by norm_num) (by norm_num) (by norm_num)
    (by norm_num) ⟨1, 1, 0, 0⟩ ⟨1, 0, 0⟩]
  norm_num [Mat4.identity, Mat4.transform_point3, Vec4.xyz]

/-- C7: blending the four skin matrices first and applying the result once
(what the code computes) yields the same world position as applying each
matrix to the point and blending the four transformed points with the same
weights: `Σ wk * (M[jk] * p) = (Σ wk * M[jk]) * p`. -/
theorem blend_matrices_eq_blend_points (joints : List Mat4) (i0 i1 i2 i3 : ℕ)
    (h0 : i0 < joints.length) (h1 : i1 < joints.length) (h2 : i2 < joints.length)
    (h3 : i3 < joints.length) (w : Vec4) (p : Vec3) :
    vertexWsPosition joints ⟨i0, i1, i2, i3⟩ w p =
      some (w.x • (joints[i0].transform_point3 p) + w.y • (joints[i1].transform_point3 p) +
        w.z • (joints[i2].transform_point3 p) + w.w • (joints[i3].transform_point3 p)) := by
  unfold vertexWsPosition skin_model
  rw [List.getElem?_eq_getElem h0, List.getElem?_eq_getElem h1,
    List.getElem?_eq_getElem h2, List.getElem?_eq_getElem h3]
  show some ((w.x • joints[i0] + w.y • joints[i1] + w.z • joints[i2] +
    w.w • joints[i3]).transform_point3 p) = _
  rw [transform_point3_blend]

/-- Witness for C7 at a concrete two-joint blend. -/
theorem blend_matrices_eq_blend_points_witness :
    ((0 : ℕ) < 2 ∧ (1 : ℕ) < 2) ∧
    vertexWsPosition [Mat4.identity,
        ⟨⟨1, 0, 0, 0⟩, ⟨0, 1, 0, 0⟩, ⟨0, 0, 1, 0⟩, ⟨4, 5, 6, 1⟩⟩]
      ⟨0, 1, 0, 0⟩ ⟨1 / 2, 1 / 4, 0, 0⟩ ⟨2, 0, 0⟩ =
      some ((1 / 2 : ℚ) • (Mat4.transform_point3 Mat4.identity ⟨2, 0, 0⟩) +
        (1 / 4 : ℚ) • (Mat4.transform_point3
          ⟨⟨1, 0, 0, 0⟩, ⟨0, 1, 0, 0⟩, ⟨0, 0, 1, 0⟩, ⟨4, 5, 6, 1⟩⟩ ⟨2, 0, 0⟩) +
        (0 : ℚ) • (Mat4.transform_point3 Mat4.identity ⟨2, 0, 0⟩) +
        (0 : ℚ) • (Mat4.transform_point3 Mat4.identity ⟨2, 0, 0⟩)) := by
  refine ⟨⟨by norm_num, by norm_num⟩, ?_⟩
  exact blend_matrices_eq_blend_points _ 0 1 0 0 (by norm_num) (by norm_num)
    (by norm_num) (by norm_num) ⟨1 / 2, 1 / 4, 0, 0⟩ ⟨2, 0, 0⟩

/-- C10: `skin_model` indexes the joint-matrix list unconditionally at all
four slots — whenever any of the four indices is out of bounds the lookup
fails (a panic in the Rust code, `none` here), with no exemption for slots
whose weight is 0 (the weights are universally quantified). -/
theorem skin_model_oob_none (joints : List Mat4) (idx : JointIndices) (w : Vec4)
    (h : joints.length ≤ idx.i0 ∨ joints.length ≤ idx.i1 ∨ joints.length ≤ idx.i2 ∨
      joints.length ≤ idx.i3) :
    skin_model joints idx w = none := by
  unfold skin_model
  rcases h with h | h | h | h
  · rw [List.getElem?_eq_none h]
  · cases joints[idx.i0]? <;> rw [List.getElem?_eq_none h]
  · cases joints[idx.i0]? <;> cases joints[idx.i1]? <;> rw [List.getElem?_eq_none h]
  · cases joints[idx.i0]? <;> cases joints[idx.i1]? <;> cases joints[idx.i2]? <;>
      rw [List.getElem?_eq_none h]

/-- Witness for C10: one joint matrix, filler slot 1 indexes out of bounds
with weight 0 — the lookup still fails. -/
theorem skin_model_oob_none_witness :
    (([Mat4.identity] : List Mat4).length ≤ 0 ∨
      ([Mat4.identity] : List Mat4).length ≤ 1 ∨
      ([Mat4.identity] : List Mat4).length ≤ 0 ∨
      ([Mat4.identity] : List Mat4).length ≤ 0) ∧
    skin_model [Mat4.identity] ⟨0, 1, 0, 0⟩ ⟨1, 0, 0, 0⟩ = none := by
  have h : (([Mat4.identity] : List Mat4).length ≤ 0 ∨
      ([Mat4.identity] : List Mat4).length ≤ 1 ∨
      ([Mat4.identity] : List Mat4).length ≤ 0 ∨
      ([Mat4.identity] : List Mat4).length ≤ 0) := Or.inr (Or.inl (by norm_num))
  exact ⟨h, skin_model_oob_none _ ⟨0, 1, 0, 0⟩ ⟨1, 0, 0, 0⟩ h⟩

/-- Any of the `continue`/fall-through conditions of the per-mesh loop
(missing attribute, or failed joint build) produces the `skipped` outcome. -/
theorem processMesh_eq_skipped (wt : ℕ → Option Mat4) (input : MeshInput)
    (h : input.attrs.positions = none ∨ input.attrs.joint_indices = none ∨
      input.attrs.joint_weights = none ∨
      input.inverse_bindposes.bind (buildJoints wt input.joints) = none) :
    processMesh wt input = .skipped := by
  unfold processMesh
  rcases h with h | h | h | h
  · rw [h]
  · cases input.attrs.positions with
    | none => rfl
    | some ps => rw [h]
  · cases input.attrs.positions with
    | none => rfl
    | some ps =>
      cases input.attrs.joint_indices with
      | none => rfl
      | some idxs => rw [h]
  · cases input.attrs.positions with
    | none => rfl
    | some ps =>
      cases input.attrs.joint_indices with
      | none => rfl
      | some idxs =>
        cases input.attrs.joint_weights with
        | none => rfl
        | some ws => rw [h]

/-- If some joint of the binding (within the zipped range) has no world
transform, the joint build signals failure. -/
theorem buildJoints_none (wt : ℕ → Option Mat4) :
    ∀ (joints : List ℕ) (ibps : List Mat4), joints.length ≤ ibps.length →
      ∀ j ∈ joints, wt j = none → buildJoints wt joints ibps = none := by
  intro joints
  induction joints with
  | nil => intro ibps _ j hj; simp at hj
  | cons a t ih =>
    intro ibps hlen j hj hwt
    cases ibps with
    | nil => simp at hlen
    | cons b tb =>
      rcases List.mem_cons.mp hj with rfl | hj
      · simp [buildJoints, collectMap, hwt]
      · have htb : buildJoints wt t tb = none :=
          ih tb (Nat.le_of_succ_le_succ (by simpa using hlen)) j hj hwt
        simp only [buildJoints, List.zip, List.zipWith_cons_cons, collectMap] at htb ⊢
        cases wt a <;> simp [htb]

/-- A skipped mesh leaves the rest of the frame's processing intact. -/
theorem runFrame_cons_skipped (wt : ℕ → Option Mat4) (input : MeshInput)
    (rest : List MeshInput) (h : processMesh wt input = .skipped) :
    runFrame wt (input :: rest) =
      (runFrame wt rest).map (fun os => MeshOutcome.skipped :: os) := by
  unfold runFrame
  simp only [collectMap, h]
  cases hr : collectMap (fun input => outcomeOk (processMesh wt input)) rest with
  | none => rfl
  | some os => rfl

/-- Counterexample to C4 as stated: a mesh whose attribute arrays are all
present but empty yields zero world-space positions; `compute_aabb` then
returns `None` and the caller's `.unwrap()` panics, aborting the whole
`skinned_vertex_locations` run — the healthy second mesh is never
processed. -/
theorem unwrap_panic_aborts_frame :
    processMesh (fun _ => some Mat4.identity)
      ⟨[0], some [Mat4.identity], ⟨some [], some [], some []⟩⟩ = .panicked ∧
    runFrame (fun _ => some Mat4.identity)
      [⟨[0], some [Mat4.identity], ⟨some [], some [], some []⟩⟩,
       ⟨[0], some [Mat4.identity],
         ⟨some [⟨0, 0, 0⟩], some [⟨0, 0, 0, 0⟩], some [⟨1, 0, 0, 0⟩]⟩⟩] = none := by
  constructor
  · norm_num [processMesh, buildJoints, collectMap, wsPositionsOf, compute_aabb,
      Mat4.mul, Mat4.mulVec4, Mat4.identity, VEC3_MAX, VEC3_MIN, f32MAX, f32MIN]
  · norm_num [runFrame, collectMap, outcomeOk, processMesh, buildJoints, wsPositionsOf,
      vertexWsPosition, skin_model, Mat4.mul, Mat4.mulVec4, Mat4.identity,
      compute_aabb, aabbStep, VEC3_MAX, VEC3_MIN, f32MAX, f32MIN, Vec3.min, Vec3.max]

/-- C4 (amended): the missing-attribute and missing-joint-transform error
conditions are local and non-fatal — the mesh is skipped and the remaining
meshes of the frame are processed unchanged. (The empty-AABB condition is
*not* handled by the caller: see the counterexample, where `.unwrap()`
panics.) -/
theorem missing_inputs_nonfatal (wt : ℕ → Option Mat4) (input : MeshInput)
    (rest : List MeshInput)
    (h : input.attrs.positions = none ∨ input.attrs.joint_indices = none ∨
      input.attrs.joint_weights = none ∨
      input.inverse_bindposes.bind (buildJoints wt input.joints) = none) :
    processMesh wt input = .skipped ∧
    runFrame wt (input :: rest) =
      (runFrame wt rest).map (fun os => MeshOutcome.skipped :: os) :=
  have hs : processMesh wt input = .skipped := processMesh_eq_skipped wt input h
  ⟨hs, runFrame_cons_skipped wt input rest hs⟩

/-- Witness for C4 (amended): a mesh missing its weight attribute is
skipped and the rest of the frame is unaffected. -/
theorem missing_inputs_nonfatal_witness :
    ((⟨[0], some [Mat4.identity], ⟨some [], some [], none⟩⟩ : MeshInput).attrs.positions = none ∨
      (⟨[0], some [Mat4.identity], ⟨some [], some [], none⟩⟩ : MeshInput).attrs.joint_indices = none ∨
      (⟨[0], some [Mat4.identity], ⟨some [], some [], none⟩⟩ : MeshInput).attrs.joint_weights = none ∨
      (⟨[0], some [Mat4.identity], ⟨some [], some [], none⟩⟩ : MeshInput).inverse_bindposes.bind
        (buildJoints (fun _ => some Mat4.identity)
          (⟨[0], some [Mat4.identity], ⟨some [], some [], none⟩⟩ : MeshInput).joints) = none) ∧
    processMesh (fun _ => some Mat4.identity)
        ⟨[0], some [Mat4.identity], ⟨some [], some [], none⟩⟩ = .skipped ∧
    runFrame (fun _ => some Mat4.identity)
        [⟨[0], some [Mat4.identity], ⟨some [], some [], none⟩⟩] =
      (runFrame (fun _ => some Mat4.identity) []).map
        (fun os => MeshOutcome.skipped :: os) :=
  ⟨Or.inr (Or.inr (Or.inl rfl)),
    missing_inputs_nonfatal (fun _ => some Mat4.identity)
      ⟨[0], some [Mat4.identity], ⟨some [], some [], none⟩⟩ []
      (Or.inr (Or.inr (Or.inl rfl)))⟩

/-- Counterexample to C5 as stated: a mesh with two positions but only one
joint-index and one weight entry (mismatched lengths) is *not* skipped —
the arrays are zipped, truncating to one vertex, and a partial output of
one world-space position plus its AABB is produced. -/
theorem length_mismatch_truncates :
    processMesh (fun _ => some Mat4.identity)
      ⟨[0], some [Mat4.identity],
        ⟨some [⟨0, 0, 0⟩, ⟨1, 0, 0⟩], some [⟨0, 0, 0, 0⟩], some [⟨1, 0, 0, 0⟩]⟩⟩ =
      .ok [⟨0, 0, 0⟩] ⟨⟨0, 0, 0⟩, ⟨0, 0, 0⟩⟩ := by
  norm_num [processMesh, buildJoints, collectMap, wsPositionsOf, vertexWsPosition,
    skin_model, Mat4.mul, Mat4.mulVec4, Mat4.identity, Mat4.transform_point3, Vec4.xyz,
    compute_aabb, aabbStep, VEC3_MAX, VEC3_MIN, f32MAX, f32MIN, Vec3.min, Vec3.max,
    Aabb.from_min_max]

/-- C5 (amended): if a mesh lacks any of the three required attribute
arrays, skinning is skipped entirely and no output is produced; a length
mismatch between present arrays, however, is not detected — the arrays are
zipped element-wise, so any produced output has the length of the shortest
array. -/
theorem missing_attribute_skips_mesh (wt : ℕ → Option Mat4) (input : MeshInput) :
    ((input.attrs.positions = none ∨ input.attrs.joint_indices = none ∨
        input.attrs.joint_weights = none) → processMesh wt input = .skipped) ∧
    (∀ (joints : List Mat4) (ps : List Vec3) (idxs : List JointIndices) (ws : List Vec4)
        (out : List Vec3), wsPositionsOf joints ps idxs ws = some out →
        out.length = Min.min (Min.min ps.length idxs.length) ws.length) := by
  constructor
  · intro h
    exact processMesh_eq_skipped wt input
      (h.elim (fun h => Or.inl h) (fun h => h.elim (fun h => Or.inr (Or.inl h))
        (fun h => Or.inr (Or.inr (Or.inl h)))))
  · intro joints ps idxs ws out hout
    rw [collectMap_some_length hout]
    simp [List.length_zip]

/-- Witness for C5 (amended): a mesh with no position attribute is
skipped. -/
theorem missing_attribute_skips_mesh_witness :
    ((⟨[], some [], ⟨none, some [], some []⟩⟩ : MeshInput).attrs.positions = none ∨
      (⟨[], some [], ⟨none, some [], some []⟩⟩ : MeshInput).attrs.joint_indices = none ∨
      (⟨[], some [], ⟨none, some [], some []⟩⟩ : MeshInput).attrs.joint_weights = none) ∧
    processMesh (fun _ => none) ⟨[], some [], ⟨none, some [], some []⟩⟩ = .skipped :=
  ⟨Or.inl rfl,
    (missing_attribute_skips_mesh (fun _ => none)
      ⟨[], some [], ⟨none, some [], some []⟩⟩).1 (Or.inl rfl)⟩

/-- C6 (spec-modelled joint build): if any joint referenced by the mesh's
binding has no world transform, the build signals the missing-transform
condition and the whole mesh is skipped for the frame — no positions,
debug-cube updates or AABB are produced and no substitute transform is
used. -/
theorem missing_joint_transform_skips_mesh (wt : ℕ → Option Mat4) (input : MeshInput)
    (ibps : List Mat4) (j : ℕ)
    (hb : input.inverse_bindposes = some ibps)
    (hlen : input.joints.length ≤ ibps.length)
    (hj : j ∈ input.joints)
    (hwt : wt j = none) :
    processMesh wt input = .skipped := by
  have hb4 : input.inverse_bindposes.bind (buildJoints wt input.joints) = none := by
    rw [hb]
    exact buildJoints_none wt input.joints ibps hlen j hj hwt
  exact processMesh_eq_skipped wt input (Or.inr (Or.inr (Or.inr hb4)))

/-- Witness for C6: a two-joint binding whose transforms are unavailable;
the mesh with otherwise complete attributes is skipped. -/
theorem missing_joint_transform_skips_mesh_witness :
    (⟨[0, 1], some [Mat4.identity, Mat4.identity],
        ⟨some [⟨0, 0, 0⟩], some [⟨0, 0, 0, 0⟩], some [⟨1, 0, 0, 0⟩]⟩⟩ : MeshInput).inverse_bindposes =
      some [Mat4.identity, Mat4.identity] ∧
    (1 : ℕ) ∈ [0, 1] ∧
    (fun _ : ℕ => (none : Option Mat4)) 1 = none ∧
    processMesh (fun _ => none)
      ⟨[0, 1], some [Mat4.identity, Mat4.identity],
        ⟨some [⟨0, 0, 0⟩], some [⟨0, 0, 0, 0⟩], some [⟨1, 0, 0, 0⟩]⟩⟩ = .skipped :=
  ⟨rfl, by simp, rfl,
    missing_joint_transform_skips_mesh (fun _ => none)
      ⟨[0, 1], some [Mat4.identity, Mat4.identity],
        ⟨some [⟨0, 0, 0⟩], some [⟨0, 0, 0, 0⟩], some [⟨1, 0, 0, 0⟩]⟩⟩
      [Mat4.identity, Mat4.identity] 1 rfl (by norm_num) (by simp) rfl⟩

end SkinnedAabb
